import Mathlib

/-!
Verification of the hootcad script-execution and geometry-normalization
pipeline.  The definitions below are a shallow embedding of the relevant
TypeScript/JavaScript source: JavaScript numbers are modelled as exact
rationals (`Rat`, with a separate `nan` constructor standing for the
non-finite values NaN and ±Infinity), JavaScript's `undefined` and `null`
are explicit constructors, and fallible operations return `Option` or
`Except`.
-/

namespace HootCad

/-- Model of a JavaScript runtime value, covering the cases the parameter
pipeline manipulates: `undefined`, `null`, booleans, finite numbers (as
exact rationals), non-finite numbers (`nan`, standing for NaN and
±Infinity), strings, and arrays. -/
inductive JSValue where
  | undef : JSValue
  | null : JSValue
  | bool : Bool → JSValue
  | num : Rat → JSValue
  | nan : JSValue
  | str : String → JSValue
  | arr : List JSValue → JSValue
deriving Repr

/-- Is this value JavaScript's `undefined`?  (The code's
`value === undefined` / `coerced !== undefined` tests.) -/
def isUndef : JSValue → Bool
  | .undef => true
  | _ => false

/-- JavaScript truthiness for the modelled values (`Boolean(v)`). -/
def jsTruthy : JSValue → Bool
  | .undef => false
  | .null => false
  | .bool b => b
  | .num q => q ≠ 0
  | .nan => false
  | .str s => s ≠ ""
  | .arr _ => true

/-! ### Models of the JavaScript number/string primitives used by the code

These model the ECMAScript operations `String(v)`, `Number(v)`,
`parseFloat`, `parseInt(s, 10)` and `Math.trunc` for the value grammar
above.  An `Option Rat` result of `none` stands for a non-finite number
(NaN or ±Infinity); hexadecimal `Number` literals (`"0x…"`) are not
modelled.  Number-to-string printing produces the plain decimal expansion
(up to 30 fractional digits), which matches JavaScript's output on the
short terminating decimals that occur in this program. -/

/-- Numeric value of a list of decimal digit characters. -/
def digitsToNat (ds : List Char) : Nat :=
  ds.foldl (fun a c => 10 * a + (c.toNat - '0'.toNat)) 0

/-- Value of a hexadecimal digit character. -/
def hexVal (c : Char) : Nat :=
  if c.isDigit then c.toNat - '0'.toNat
  else if 'a' ≤ c ∧ c ≤ 'f' then c.toNat - 'a'.toNat + 10
  else if 'A' ≤ c ∧ c ≤ 'F' then c.toNat - 'A'.toNat + 10
  else 0

/-- Is `c` a hexadecimal digit (the character class `[0-9a-fA-F]`)? -/
def isHexDigitChar (c : Char) : Bool :=
  c.isDigit || ('a' ≤ c && c ≤ 'f') || ('A' ≤ c && c ≤ 'F')

/-- Drop leading and trailing whitespace from a character list
(models `String.prototype.trim` for ASCII whitespace). -/
def jsTrimChars (cs : List Char) : List Char :=
  ((cs.dropWhile Char.isWhitespace).reverse.dropWhile Char.isWhitespace).reverse

/-- Consume an optional leading sign, returning the sign and the rest. -/
def parseSign : List Char → Int × List Char
  | '+' :: cs => (1, cs)
  | '-' :: cs => (-1, cs)
  | cs => (1, cs)

/-- Fractional value of a digit list read after a decimal point. -/
def fracValue (ds : List Char) : Rat :=
  (digitsToNat ds : Rat) / (10 : Rat) ^ ds.length

/-- Consume an unsigned decimal mantissa (`digits`, `digits.digits`,
`digits.`, or `.digits`); `none` when no digits are present. -/
def parseMantissa (cs : List Char) : Option (Rat × List Char) :=
  let p1 := cs.span Char.isDigit
  match p1.2 with
  | '.' :: r2 =>
      let p2 := r2.span Char.isDigit
      if p1.1 = [] ∧ p2.1 = [] then none
      else some ((digitsToNat p1.1 : Rat) + fracValue p2.1, p2.2)
  | _ => if p1.1 = [] then none else some ((digitsToNat p1.1 : Rat), p1.2)

/-- Ten to an integer power, as a rational. -/
def pow10 (e : Int) : Rat :=
  if 0 ≤ e then (10 : Rat) ^ e.toNat else 1 / (10 : Rat) ^ (-e).toNat

/-- Consume an optional exponent part (`e±digits`); when the digits are
missing the exponent marker is not consumed. -/
def parseExponent (cs : List Char) : Int × List Char :=
  match cs with
  | c :: rest =>
      if c = 'e' ∨ c = 'E' then
        let p := parseSign rest
        let pd := p.2.span Char.isDigit
        if pd.1 = [] then (0, cs) else (p.1 * (digitsToNat pd.1 : Int), pd.2)
      else (0, cs)
  | [] => (0, cs)

/-- Consume the longest prefix of `cs` forming a signed decimal number
literal, returning its exact value and the unconsumed rest. -/
def parseJsNumberPrefix (cs : List Char) : Option (Rat × List Char) :=
  let ps := parseSign cs
  match parseMantissa ps.2 with
  | none => none
  | some (m, cs2) =>
      let pe := parseExponent cs2
      some ((ps.1 : Rat) * m * pow10 pe.1, pe.2)

/-- `Number(string)`: trims, maps the empty string to `0`, and otherwise
requires the whole string to be a decimal literal. -/
def jsNumberFromString (s : String) : Option Rat :=
  let cs := jsTrimChars s.toList
  if cs = [] then some 0
  else
    match parseJsNumberPrefix cs with
    | some (q, []) => some q
    | _ => none

/-- `parseFloat(string)`: skips leading whitespace and reads the longest
valid decimal prefix; `none` when there is none. -/
def jsParseFloat (s : String) : Option Rat :=
  match parseJsNumberPrefix (s.toList.dropWhile Char.isWhitespace) with
  | some (q, _) => some q
  | none => none

/-- `parseInt(string, 10)`: skips leading whitespace, reads an optional
sign and the longest digit prefix; `none` when there are no digits. -/
def jsParseInt10 (s : String) : Option Int :=
  let ps := parseSign (s.toList.dropWhile Char.isWhitespace)
  let pd := ps.2.span Char.isDigit
  if pd.1 = [] then none else some (ps.1 * (digitsToNat pd.1 : Int))

/-- `Math.trunc` on a finite number: round toward zero. -/
def jsTrunc (q : Rat) : Rat := ((Int.tdiv q.num (q.den : Int) : Int) : Rat)

/-- Decimal digits of `rem / d` (the fractional part), with fuel. -/
def fracDigits (rem d : Nat) : Nat → String
  | 0 => ""
  | fuel + 1 =>
      if rem = 0 then ""
      else toString (rem * 10 / d) ++ fracDigits (rem * 10 % d) d fuel

/-- Decimal rendering of a rational (models JavaScript number printing on
the terminating decimals used by this program). -/
def ratDecimalString (q : Rat) : String :=
  let sgn := if q < 0 then "-" else ""
  let n := q.num.natAbs
  let ip := n / q.den
  let rem := n % q.den
  if rem = 0 then sgn ++ toString ip
  else sgn ++ toString ip ++ "." ++ fracDigits rem q.den 30

mutual

/-- `String(v)` for the modelled values. -/
def jsToString : JSValue → String
  | .undef => "undefined"
  | .null => "null"
  | .bool b => cond b "true" "false"
  | .nan => "NaN"
  | .num q => ratDecimalString q
  | .str s => s
  | .arr l => jsArrayToString l
termination_by structural v => v

/-- `String(array)`: elements joined by commas, with `undefined` and
`null` elements rendered as empty strings. -/
def jsArrayToString : List JSValue → String
  | [] => ""
  | [.undef] => ""
  | [.null] => ""
  | [x] => jsToString x
  | .undef :: xs => "," ++ jsArrayToString xs
  | .null :: xs => "," ++ jsArrayToString xs
  | x :: xs => jsToString x ++ "," ++ jsArrayToString xs
termination_by structural l => l

end

/-- `Number(v)` for the modelled values (`none` = non-finite). -/
def jsNumber : JSValue → Option Rat
  | .undef => none
  | .null => some 0
  | .bool b => some (cond b 1 0)
  | .num q => some q
  | .nan => none
  | .str s => jsNumberFromString s
  | .arr l => jsNumberFromString (jsArrayToString l)

/-! ### Parameter definitions and value resolution

Embedding of `ParameterDefinition` (the interface in the engine module)
and of `ParameterCache.getMergedParameters` with its inner helpers
`coerceColor` and `coerceValue` (src/src/utilities.ts, lines 67–176).
The persisted per-file value map and the merged result are modelled as
`Record = String → Option JSValue`; `some .undef` models an own property
whose stored value is `undefined`, `none` models an absent key. -/

/-- The `type` field of a `ParameterDefinition`. -/
inductive ParamType where
  | number | float | int | slider | text | checkbox | choice | color
  | date | email | password | url
deriving DecidableEq, Repr

/-- Embedding of the `ParameterDefinition` interface. -/
structure ParameterDefinition where
  name : String
  type : ParamType
  initial : Option JSValue := none
  caption : Option String := none
  min : Option Rat := none
  max : Option Rat := none
  step : Option Rat := none
  checked : Option Bool := none
  values : Option (List JSValue) := none
  captions : Option (List String) := none
deriving Repr

/-- Value of a two-character hexadecimal slice (`parseInt(slice, 16)`). -/
def hexPair : List Char → Nat
  | [a, b] => 16 * hexVal a + hexVal b
  | _ => 0

/-- The hex branch of `coerceColor` (utilities.ts lines 94–105): expand
3- and 4-digit short forms by doubling each digit, parse the byte pairs,
and divide each channel by 255, with alpha 255 when absent. -/
def hexColorChannels (rest : List Char) : JSValue :=
  let digits :=
    if rest.length = 3 ∨ rest.length = 4 then (rest.map (fun c => [c, c])).flatten
    else rest
  let r := hexPair (digits.take 2)
  let g := hexPair ((digits.drop 2).take 2)
  let b := hexPair ((digits.drop 4).take 2)
  let a := if digits.length = 8 then hexPair ((digits.drop 6).take 2) else 255
  .arr [.num ((r : Rat) / 255), .num ((g : Rat) / 255),
        .num ((b : Rat) / 255), .num ((a : Rat) / 255)]

/-- Embedding of the `coerceColor` closure in
`ParameterCache.getMergedParameters` (utilities.ts lines 71–106). -/
def coerceColor (v : JSValue) : JSValue :=
  match v with
  | .arr l =>
      let numeric := l.map jsNumber
      if numeric.all Option.isSome ∧ (l.length = 3 ∨ l.length = 4) then
        let nums := numeric.map (fun o => o.getD 0)
        let needsNormalize := nums.any (fun q => q > 1)
        let normalized := if needsNormalize then nums.map (fun q => q / 255) else nums
        let rgba := if normalized.length = 3 then normalized ++ [1] else normalized
        .arr (rgba.map JSValue.num)
      else v
  | .str s =>
      match jsTrimChars s.toList with
      | '#' :: rest =>
          if rest.all isHexDigitChar ∧
              (rest.length = 3 ∨ rest.length = 4 ∨ rest.length = 6 ∨ rest.length = 8) then
            hexColorChannels rest
          else v
      | _ => v
  | _ => v

/-- Spec-side fixture: the lowercase character for one hex digit value. -/
def hexDigitChar (n : Fin 16) : Char :=
  if n.val < 10 then Char.ofNat ('0'.toNat + n.val)
  else Char.ofNat ('a'.toNat + (n.val - 10))

/-- Spec-side fixture: the two lowercase hex characters of a byte. -/
def byteChars (b : Fin 256) : List Char :=
  [hexDigitChar ⟨b.val / 16, by omega⟩, hexDigitChar ⟨b.val % 16, by omega⟩]

/-- Embedding of the `coerceValue` closure in
`ParameterCache.getMergedParameters` (utilities.ts lines 108–149). -/
def coerceValue (d : ParameterDefinition) (v : JSValue) : JSValue :=
  if isUndef v then .undef
  else if d.type = .color then coerceColor v
  else if d.type = .checkbox then
    match v with
    | .bool b => .bool b
    | .str s => .bool (s.toLower = "true")
    | _ => .bool (jsTruthy v)
  else if d.type = .int then
    match v with
    | .num q => .num (jsTrunc q)
    | .str s =>
        (match jsParseInt10 s with
         | some n => .num (jsTrunc (n : Rat))
         | none => .undef)
    | _ =>
        (match jsNumber v with
         | some q => .num (jsTrunc q)
         | none => .undef)
  else if d.type = .number ∨ d.type = .float ∨ d.type = .slider then
    match v with
    | .num q => .num q
    | .str s =>
        (match jsParseFloat s with
         | some q => .num q
         | none => .undef)
    | _ =>
        (match jsNumber v with
         | some q => .num q
         | none => .undef)
  else
    match d.type, d.values with
    | .choice, some vals =>
        (match vals.find? (fun w => jsToString w = jsToString v) with
         | some .undef => v
         | some w => w
         | none => v)
    | _, _ => v

/-- A JavaScript plain object used as a string-keyed map: `some .undef`
is an own property holding `undefined`, `none` an absent key. -/
def Record := String → Option JSValue

/-- The empty object `{}`. -/
def emptyRecord : Record := fun _ => none

/-- `r[k] = v`. -/
def rset (r : Record) (k : String) (v : JSValue) : Record :=
  fun k' => if k' = k then some v else r k'

/-- One iteration of the seeding loop of `getMergedParameters`
(utilities.ts lines 152–163). -/
def seedOne (r : Record) (d : ParameterDefinition) : Record :=
  if d.type = .checkbox then rset r d.name (.bool (d.checked.getD false))
  else
    match d.type, d.initial, d.values with
    | .choice, some i, _ => rset r d.name (coerceValue d i)
    | .choice, none, some (v0 :: _) => rset r d.name (coerceValue d v0)
    | .choice, none, _ => r
    | _, some i, _ => rset r d.name (coerceValue d i)
    | _, none, _ => r

/-- The seeded-defaults map: the first loop of `getMergedParameters`. -/
def seededDefaults (defs : List ParameterDefinition) : Record :=
  defs.foldl seedOne emptyRecord

/-- One iteration of the override loop of `getMergedParameters`
(utilities.ts lines 166–173). -/
def overrideOne (cached : Record) (r : Record) (d : ParameterDefinition) : Record :=
  match cached d.name with
  | some v =>
      let c := coerceValue d v
      if isUndef c then r else rset r d.name c
  | none => r

/-- Embedding of `ParameterCache.getMergedParameters`: seed per-kind
defaults, then override with coerced persisted values. -/
def getMergedParameters (defs : List ParameterDefinition) (cached : Record) : Record :=
  defs.foldl (overrideOne cached) (seededDefaults defs)

/-- The value (if any) the seeding loop assigns for one definition. -/
def seedValue (d : ParameterDefinition) : Option JSValue :=
  if d.type = .checkbox then some (.bool (d.checked.getD false))
  else
    match d.type, d.initial, d.values with
    | .choice, some i, _ => some (coerceValue d i)
    | .choice, none, some (v0 :: _) => some (coerceValue d v0)
    | .choice, none, _ => none
    | _, some i, _ => some (coerceValue d i)
    | _, none, _ => none

/-! ### Entrypoint resolution

Embedding of `resolveJscadEntrypointWithOptions` and
`resolveFromActiveEditor` (the engine module, src/unnamed/part_013).
The filesystem and JSON parsing are environment effects, modelled by a
`FileSystem` record of pure functions; `path.join`/`path.resolve` are
modelled by string concatenation (no `..` normalisation, which the code
never relies on). -/

/-- The `source` discriminator of a resolved entrypoint. -/
inductive EntrypointSource where
  | packageJson | indexJscad | activeEditor
deriving DecidableEq, Repr

/-- Embedding of the `JscadEntrypoint` interface. -/
structure JscadEntrypoint where
  filePath : String
  source : EntrypointSource
deriving DecidableEq, Repr

/-- Result of reading and JSON-parsing a manifest file: a parse failure
(the code's catch), or the parsed object's `main` field (`none` when the
property is absent). -/
inductive ManifestRead where
  | parseError : ManifestRead
  | parsed : Option JSValue → ManifestRead

/-- The filesystem as seen by the resolver. -/
structure FileSystem where
  fileExists : String → Bool
  readManifest : String → ManifestRead

/-- `path.join(root, name)` for a simple name. -/
def pathJoin (root name : String) : String := root ++ "/" ++ name

/-- `path.resolve(root, p)`: an absolute `p` is taken as-is, otherwise
it is joined to the root. -/
def pathResolve (root p : String) : String :=
  if p.startsWith "/" then p else root ++ "/" ++ p

/-- Embedding of `resolveFromActiveEditor`: the active editor file when
it is a non-empty path ending in `.jscad`. -/
def resolveFromActiveEditor (activeEditorFilePath : Option String) : Option JscadEntrypoint :=
  match activeEditorFilePath with
  | some p => if p ≠ "" ∧ p.endsWith ".jscad" then some ⟨p, .activeEditor⟩ else none
  | none => none

/-- Embedding of `resolveJscadEntrypointWithOptions`: manifest `main`
(existing `.jscad` file), else `index.jscad` at the root, else the
active editor file; the early `return` of the manifest branch is modelled
by the intermediate option. -/
def resolveJscadEntrypointWithOptions (fs : FileSystem)
    (workspaceRoot : Option String) (activeEditorFilePath : Option String) :
    Option JscadEntrypoint :=
  match workspaceRoot with
  | none => resolveFromActiveEditor activeEditorFilePath
  | some root =>
      let packageJsonPath := pathJoin root "package.json"
      let fromManifest : Option JscadEntrypoint :=
        if fs.fileExists packageJsonPath then
          match fs.readManifest packageJsonPath with
          | .parseError => none
          | .parsed mainField =>
              match mainField with
              | some (.str s) =>
                  if s ≠ "" then
                    let mainPath := pathResolve root s
                    if mainPath.endsWith ".jscad" ∧ fs.fileExists mainPath then
                      some ⟨mainPath, .packageJson⟩
                    else none
                  else none
              | _ => none
        else none
      match fromManifest with
      | some e => some e
      | none =>
          let indexJscadPath := pathJoin root "index.jscad"
          if fs.fileExists indexJscadPath then some ⟨indexJscadPath, .indexJscad⟩
          else resolveFromActiveEditor activeEditorFilePath

/-- Spec-side definition (from §4.1 of the spec, for the refinement
theorem): the path named by a manifest `main` field when the manifest
exists at the root, parses, and its `main` is a non-empty string naming
an existing file with the `.jscad` extension; `none` otherwise. -/
def specManifestMain (fs : FileSystem) (root : String) : Option String :=
  if fs.fileExists (pathJoin root "package.json") then
    match fs.readManifest (pathJoin root "package.json") with
    | .parsed (some (.str s)) =>
        if s ≠ "" ∧ (pathResolve root s).endsWith ".jscad" ∧
            fs.fileExists (pathResolve root s) then
          some (pathResolve root s)
        else none
    | _ => none
  else none

/-! ### Sandbox executor

Embedding of `loadJscadModuleFromFile`'s `customRequire` closure and the
engine functions `getParameterDefinitions` and `executeJscadFile`
(src/unnamed/part_013).  Node's module loading, the VM execution and the
renderer library are environment effects: module loading is a parameter
`load : Except JSError ScriptModule` (an `error` is a script that throws
or fails to parse at load time), the two `require` resolvers are function
parameters, and `entitiesFromSolids` plus serialization are abstracted
into a `convert` parameter. -/

/-- A JavaScript exception, reduced to its message. -/
structure JSError where
  message : String
deriving DecidableEq, Repr

/-- The exports of a loaded script module that the engine consumes:
`getParameterDefinitions` is `none` when absent or not a function, and
otherwise the outcome of calling it (a thrown error or a returned
value); `main` likewise, as a function of the parameter map. -/
structure ScriptModule where
  getParameterDefinitions : Option (Except JSError JSValue) := none
  main : Option (Record → Except JSError JSValue) := none

/-- Embedding of the `customRequire` closure (part_013 lines 433–441):
first try the ambient Node resolution (the script's directory and module
search path); only when that throws, fall back to the resolver rooted at
the extension's own bundled `node_modules`. -/
def customRequire (nodeRequire extensionRequire : String → Except JSError JSValue)
    (moduleName : String) : Except JSError JSValue :=
  match nodeRequire moduleName with
  | .ok m => .ok m
  | .error _ => extensionRequire moduleName

/-- Embedding of the engine's `getParameterDefinitions` (part_013 lines
567–589).  The `try` block logs `definitions.length`, which throws for a
`null`/`undefined` call result (caught by the `catch`, yielding `[]`);
any other result is returned as-is.  Totality of this function models
the contract that no exception propagates outward. -/
def getParameterDefinitions (load : Except JSError ScriptModule) : JSValue :=
  match load with
  | .error _ => .arr []
  | .ok m =>
      match m.getParameterDefinitions with
      | none => .arr []
      | some (.error _) => .arr []
      | some (.ok v) =>
          match v with
          | .undef => .arr []
          | .null => .arr []
          | v => v

/-- `Array.isArray(result) ? result : [result]`. -/
def ensureArray (v : JSValue) : JSValue :=
  match v with
  | .arr _ => v
  | v => .arr [v]

/-- Embedding of `executeJscadFile` (part_013 lines 594–660): load the
module, fail with a configuration error when no `main` function is
exported, call `main` with the provided parameters (or an empty map),
wrap a lone result into an array, and hand the geometries to the
renderer conversion; the outer catch logs and rethrows, so every error
propagates unchanged. -/
def executeJscadFile {α : Type} (load : Except JSError ScriptModule)
    (params : Option Record) (convert : JSValue → Except JSError α) :
    Except JSError α :=
  match load with
  | .error e => .error e
  | .ok m =>
      match m.main with
      | none => .error ⟨"JSCAD file must export a main() function"⟩
      | some mainFn =>
          match mainFn (params.getD emptyRecord) with
          | .error e => .error e
          | .ok result => convert (ensureArray result)

/-! ### Webview entity normalization

Embedding of the entity-processing map in `renderEntities`
(src/src/extension.ts, lines 490–620): per entity, drop the incoming
`cacheId`, convert the index buffer to 16-bit (throwing when any index
exceeds 65535), and validate the normals/colors attribute lengths
against the vertex count.  Buffers arrive already flattened (the host
serializes typed arrays with `Array.from`), so they are modelled as flat
lists: numeric buffers as `List Rat`, the index buffer as `List Nat`. -/

/-- The visuals fields the processing touches. -/
structure Visuals where
  cacheId : Option Nat := none
  color : Option (List Rat) := none
  useVertexColors : Option Bool := none
  transparent : Option Bool := none
deriving DecidableEq, Repr

/-- An entity's geometry payload, with flat attribute buffers. -/
structure EntityGeometry where
  gtype : Option String := none
  isTransparent : Bool := false
  positions : Option (List Rat) := none
  normals : Option (List Rat) := none
  indices : Option (List Nat) := none
  colors : Option (List Rat) := none
  transforms : Option (List Rat) := none
  points : Option (List Rat) := none
deriving DecidableEq, Repr

/-- A renderer entity received by the webview. -/
structure Entity where
  visuals : Visuals := {}
  geometry : EntityGeometry := {}
deriving DecidableEq, Repr

/-- Storing a value into a `Uint16Array` element. -/
def uint16 (n : Nat) : Nat := n % 65536

/-- The index-buffer conversion (extension.ts lines 542–561): compute
the maximum index by a fold from 0, throw when it exceeds 65535, and
otherwise store the values into a `Uint16Array`. -/
def convertIndices (idx : List Nat) : Except String (List Nat) :=
  let maxIndex := idx.foldl max 0
  if maxIndex > 65535 then
    .error ("Mesh has index " ++ toString maxIndex ++ " (> 65535). drawMesh uses uint16 indices.")
  else .ok (idx.map uint16)

/-- The fallback normals buffer: `(0, 0, 1)` for every vertex
(extension.ts lines 595–601). -/
def upFacingNormals (vertexCount : Nat) : List Rat :=
  (List.replicate vertexCount ([0, 0, 1] : List Rat)).flatten

/-- The attribute-length validation (extension.ts lines 581–617): when
positions are present and non-empty, a normals buffer whose length is
not vertexCount × 3 is replaced by up-facing normals, and a colors
buffer whose length is not vertexCount × 4 is deleted, vertex colors are
disabled, and a neutral gray entity color is installed only when the
entity has no color of its own. -/
def validateAttributes (e : Entity) : Entity :=
  match e.geometry.positions with
  | some p =>
      if p.length > 0 then
        let vertexCount := p.length / 3
        let expectedNormals := vertexCount * 3
        let expectedColors := vertexCount * 4
        let e1 :=
          match e.geometry.normals with
          | some ns =>
              if ns.length ≠ expectedNormals then
                { e with geometry :=
                    { e.geometry with normals := some (upFacingNormals vertexCount) } }
              else e
          | none => e
        match e1.geometry.colors with
        | some cs =>
            if cs.length ≠ expectedColors then
              { e1 with
                geometry := { e1.geometry with colors := none },
                visuals := { e1.visuals with
                  useVertexColors := some false,
                  color :=
                    match e1.visuals.color with
                    | none => some [0.7, 0.7, 0.7, 1.0]
                    | some c => some c } }
            else e1
        | none => e1
      else e
  | none => e

/-- One iteration of the `entities.map` body in `renderEntities`: drop
`cacheId`, mark transparent entities, convert indices (which may throw),
then validate attribute lengths. -/
def processEntity (e : Entity) : Except String Entity :=
  let visuals1 := { e.visuals with cacheId := none }
  let visuals2 :=
    if e.geometry.isTransparent then { visuals1 with transparent := some true }
    else visuals1
  match e.geometry.indices with
  | some idx =>
      match convertIndices idx with
      | .error msg => .error msg
      | .ok idx16 =>
          .ok (validateAttributes
            { e with visuals := visuals2,
                     geometry := { e.geometry with indices := some idx16 } })
  | none => .ok (validateAttributes { e with visuals := visuals2 })

/-- The whole batch: the `entities.map` runs inside one `try`, so a
throw for any entity aborts the whole render. -/
def processEntities (es : List Entity) : Except String (List Entity) :=
  es.mapM processEntity

/-! ### Geometry conversion (webview)

Embedding of `triangulatePolygon` and `convertGeom3ToBufferGeometry`
(src/src/webview/parameterUI.js, lines 131–191).  Vertices are triples
of exact rationals; `Math.sqrt` is an environment function and is passed
as a parameter `sqrtFn`. -/

/-- A 3-component vertex or vector. -/
def Vec3 : Type := Rat × Rat × Rat

/-- Embedding of `triangulatePolygon`: fan triangles `[0, i, i+1]` for
`i = 1 .. n-2`, and nothing for fewer than 3 vertices. -/
def triangulatePolygon {α : Type} (vertices : List α) : List (Nat × Nat × Nat) :=
  if vertices.length < 3 then []
  else (List.range' 1 (vertices.length - 2)).map (fun i => (0, i, i + 1))

/-- Componentwise subtraction (the `edge1`/`edge2` computations). -/
def vsub (a b : Vec3) : Vec3 := (a.1 - b.1, a.2.1 - b.2.1, a.2.2 - b.2.2)

/-- The cross product as written in the code. -/
def cross (u v : Vec3) : Vec3 :=
  (u.2.1 * v.2.2 - u.2.2 * v.2.1,
   u.2.2 * v.1 - u.1 * v.2.2,
   u.1 * v.2.1 - u.2.1 * v.1)

/-- The per-face normal of `convertGeom3ToBufferGeometry` (lines
151–170): the cross product of `v1 - v0` and `v2 - v0`, divided by its
euclidean length when that length is positive. -/
def faceNormal (sqrtFn : Rat → Rat) (vertices : List Vec3) : Vec3 :=
  let v0 := vertices.getD 0 (0, 0, 0)
  let v1 := vertices.getD 1 (0, 0, 0)
  let v2 := vertices.getD 2 (0, 0, 0)
  let n := cross (vsub v1 v0) (vsub v2 v0)
  let length := sqrtFn (n.1 * n.1 + n.2.1 * n.2.1 + n.2.2 * n.2.2)
  if length > 0 then (n.1 / length, n.2.1 / length, n.2.2 / length) else n

/-- The three components of a vertex, in push order. -/
def vecCoords (v : Vec3) : List Rat := [v.1, v.2.1, v.2.2]

/-- One polygon's contribution to the position and normal buffers (the
body of the `for (const polygon of geom3.polygons)` loop): polygons with
fewer than 3 vertices contribute nothing; otherwise each fan triangle
pushes its three vertices' coordinates and three copies of the face
normal. -/
def polygonContribution (sqrtFn : Rat → Rat) (vertices : List Vec3) :
    List Rat × List Rat :=
  if vertices.length < 3 then ([], [])
  else
    let n := faceNormal sqrtFn vertices
    let tris := triangulatePolygon vertices
    ((tris.map (fun t =>
        vecCoords (vertices.getD t.1 (0, 0, 0)) ++
        vecCoords (vertices.getD t.2.1 (0, 0, 0)) ++
        vecCoords (vertices.getD t.2.2 (0, 0, 0)))).flatten,
     (tris.map (fun _ => vecCoords n ++ vecCoords n ++ vecCoords n)).flatten)

/-- A JSCAD `geom3`: a list of polygons, each a vertex list. -/
structure Geom3 where
  polygons : List (List Vec3)

/-- Embedding of `convertGeom3ToBufferGeometry`: accumulate every
polygon's contribution into flat position and normal buffers. -/
def convertGeom3ToBufferGeometry (sqrtFn : Rat → Rat) (g : Geom3) :
    List Rat × List Rat :=
  g.polygons.foldl
    (fun acc poly =>
      (acc.1 ++ (polygonContribution sqrtFn poly).1,
       acc.2 ++ (polygonContribution sqrtFn poly).2)) ([], [])

/-! ### Lemmas about the parameter-resolution folds -/

theorem rset_apply (r : Record) (k : String) (v : JSValue) (k' : String) :
    rset r k v k' = if k' = k then some v else r k' := rfl

theorem seedOne_apply (r : Record) (d : ParameterDefinition) (k : String) :
    seedOne r d k = if k = d.name then (seedValue d).or (r k) else r k := by
  rcases d with ⟨name, ty, init, cap, mn, mx, st, ch, vals, caps⟩
  cases ty <;> cases init <;>
    rcases vals with _ | ⟨_ | ⟨v0, vs⟩⟩ <;>
      simp [seedOne, seedValue, rset]

theorem overrideOne_apply (cached r : Record) (d : ParameterDefinition) (k : String) :
    overrideOne cached r d k =
      if k = d.name then
        (match cached d.name with
         | some v => if isUndef (coerceValue d v) then r k else some (coerceValue d v)
         | none => r k)
      else r k := by
  rcases h : cached d.name with _ | v
  · simp only [overrideOne, h]
    split <;> rfl
  · simp only [overrideOne, h]
    by_cases hc : isUndef (coerceValue d v)
    · simp only [hc, if_true]
      split <;> rfl
    · simp only [hc, if_false, Bool.false_eq_true, rset_apply]

theorem foldl_seed_not_mem (defs : List ParameterDefinition) (r : Record) (k : String)
    (h : k ∉ defs.map (fun d => d.name)) :
    (defs.foldl seedOne r) k = r k := by
  induction defs generalizing r with
  | nil => rfl
  | cons d ds ih =>
      simp only [List.map_cons, List.mem_cons, not_or] at h
      rw [List.foldl_cons, ih _ (fun hm => h.2 hm), seedOne_apply, if_neg h.1]

theorem foldl_seed_mem (defs : List ParameterDefinition) (r : Record)
    (d : ParameterDefinition) (hmem : d ∈ defs)
    (hnodup : (defs.map (fun d => d.name)).Nodup) :
    (defs.foldl seedOne r) d.name = (seedValue d).or (r d.name) := by
  induction defs generalizing r with
  | nil => cases hmem
  | cons hd tl ih =>
      simp only [List.map_cons, List.nodup_cons] at hnodup
      rw [List.foldl_cons]
      rcases List.mem_cons.mp hmem with heq | hmem'
      · subst heq
        rw [foldl_seed_not_mem _ _ _ hnodup.1, seedOne_apply, if_pos rfl]
      · have hne : hd.name ≠ d.name := by
          intro hcontra
          exact hnodup.1 (hcontra ▸ List.mem_map.mpr ⟨d, hmem', rfl⟩)
        rw [ih _ hmem' hnodup.2, seedOne_apply, if_neg (fun h => hne h.symm)]

theorem foldl_override_not_mem (cached : Record) (defs : List ParameterDefinition)
    (r : Record) (k : String) (h : k ∉ defs.map (fun d => d.name)) :
    (defs.foldl (overrideOne cached) r) k = r k := by
  induction defs generalizing r with
  | nil => rfl
  | cons d ds ih =>
      simp only [List.map_cons, List.mem_cons, not_or] at h
      rw [List.foldl_cons, ih _ (fun hm => h.2 hm), overrideOne_apply, if_neg h.1]

theorem foldl_override_mem (cached : Record) (defs : List ParameterDefinition)
    (r : Record) (d : ParameterDefinition) (hmem : d ∈ defs)
    (hnodup : (defs.map (fun d => d.name)).Nodup) :
    (defs.foldl (overrideOne cached) r) d.name =
      (match cached d.name with
       | some v => if isUndef (coerceValue d v) then r d.name else some (coerceValue d v)
       | none => r d.name) := by
  induction defs generalizing r with
  | nil => cases hmem
  | cons hd tl ih =>
      simp only [List.map_cons, List.nodup_cons] at hnodup
      rw [List.foldl_cons]
      rcases List.mem_cons.mp hmem with heq | hmem'
      · subst heq
        rw [foldl_override_not_mem _ _ _ _ hnodup.1, overrideOne_apply, if_pos rfl]
      · have hne : hd.name ≠ d.name := by
          intro hcontra
          exact hnodup.1 (hcontra ▸ List.mem_map.mpr ⟨d, hmem', rfl⟩)
        rw [ih _ hmem' hnodup.2]
        rcases cached d.name with _ | v
        · rw [overrideOne_apply, if_neg (fun h => hne h.symm)]
        · by_cases hc : isUndef (coerceValue d v)
          · simp only [hc, if_true]
            rw [overrideOne_apply, if_neg (fun h => hne h.symm)]
          · simp only [hc, if_false, Bool.false_eq_true]

/-! ### Claim theorems: parameter value resolution -/

/-- C2: for every definition and persisted entry whose key matches it,
the resolver coerces the persisted value to the definition's kind and
overwrites the seeded default exactly when coercion yields a defined
value; when coercion fails the seeded default is left untouched, so a
persisted value that fails coercion never appears in the resolved map. -/
theorem c2_failed_coercion_keeps_seed
    (defs : List ParameterDefinition) (cached : Record)
    (d : ParameterDefinition) (v : JSValue)
    (hmem : d ∈ defs) (hnodup : (defs.map (fun d => d.name)).Nodup)
    (hcached : cached d.name = some v) :
    getMergedParameters defs cached d.name =
      if isUndef (coerceValue d v) then seededDefaults defs d.name
      else some (coerceValue d v) := by
  unfold getMergedParameters
  rw [foldl_override_mem cached defs (seededDefaults defs) d hmem hnodup, hcached]

/-- Witness for C2: a `number` definition with default 5 and a persisted
value `"abc"` whose parse is non-finite resolves to the seeded default. -/
theorem c2_failed_coercion_keeps_seed_witness :
    getMergedParameters [{ name := "w", type := .number, initial := some (.num 5) }]
        (rset emptyRecord "w" (.str "abc")) "w" =
      seededDefaults [{ name := "w", type := .number, initial := some (.num 5) }] "w" := by
  have h := c2_failed_coercion_keeps_seed
      [{ name := "w", type := .number, initial := some (.num 5) }]
      (rset emptyRecord "w" (.str "abc"))
      { name := "w", type := .number, initial := some (.num 5) } (.str "abc")
      (by simp) (by simp) rfl
  rw [h, if_pos (by rfl)]

/-- C7 (amended): with no persisted override, a checkbox resolves to its
declared checked flag (false when absent); a choice resolves to its
coerced declared initial value, else to the coerced first entry of its
values list; every other kind resolves to its declared initial value
coerced to the definition's kind when an initial is present, and is
omitted from the result otherwise. -/
theorem c7_seed_defaults
    (defs : List ParameterDefinition) (cached : Record)
    (d : ParameterDefinition)
    (hmem : d ∈ defs) (hnodup : (defs.map (fun d => d.name)).Nodup)
    (hnone : cached d.name = none) :
    (d.type = .checkbox →
        getMergedParameters defs cached d.name = some (.bool (d.checked.getD false)))
    ∧ (∀ i, d.type = .choice → d.initial = some i →
        getMergedParameters defs cached d.name = some (coerceValue d i))
    ∧ (∀ v0 vs, d.type = .choice → d.initial = none → d.values = some (v0 :: vs) →
        getMergedParameters defs cached d.name = some (coerceValue d v0))
    ∧ (∀ i, d.type ≠ .checkbox → d.type ≠ .choice → d.initial = some i →
        getMergedParameters defs cached d.name = some (coerceValue d i))
    ∧ (d.type ≠ .checkbox → d.type ≠ .choice → d.initial = none →
        getMergedParameters defs cached d.name = none)
    ∧ (d.type = .choice → d.initial = none → (∀ l, d.values = some l → l = []) →
        getMergedParameters defs cached d.name = none) := by
  have hmain : getMergedParameters defs cached d.name = seedValue d := by
    unfold getMergedParameters
    rw [foldl_override_mem cached defs (seededDefaults defs) d hmem hnodup, hnone]
    unfold seededDefaults
    rw [foldl_seed_mem defs emptyRecord d hmem hnodup]
    simp [emptyRecord]
  refine ⟨?_, ?_, ?_, ?_, ?_, ?_⟩
  · intro hc
    rw [hmain]
    simp [seedValue, hc]
  · intro i hc hi
    rw [hmain]
    simp [seedValue, hc, hi]
  · intro v0 vs hc hi hv
    rw [hmain]
    simp [seedValue, hc, hi, hv]
  · intro i h1 h2 h3
    rw [hmain]
    cases hty : d.type <;> simp_all [seedValue]
  · intro h1 h2 h3
    rw [hmain]
    cases hty : d.type <;>
      rcases hv : d.values with _ | ⟨_ | ⟨v0, vs⟩⟩ <;> simp_all [seedValue]
  · intro hc hi hv
    rw [hmain]
    rcases hval : d.values with _ | l
    · simp [seedValue, hc, hi, hval]
    · have : l = [] := hv l hval
      subst this
      simp [seedValue, hc, hi, hval]

/-- Witness for C7 (Scenario D): a choice parameter with no initial and
values `["red","green","blue"]` and no override resolves to `"red"`. -/
theorem c7_seed_defaults_witness :
    getMergedParameters
        [{ name := "c", type := .choice,
           values := some [.str "red", .str "green", .str "blue"] }]
        emptyRecord "c" = some (.str "red") := by
  have h := (c7_seed_defaults
      [{ name := "c", type := .choice,
         values := some [.str "red", .str "green", .str "blue"] }]
      emptyRecord
      { name := "c", type := .choice,
        values := some [.str "red", .str "green", .str "blue"] }
      (by simp) (by simp) rfl).2.2.1
      (.str "red") [.str "green", .str "blue"] rfl rfl rfl
  rw [h]
  rfl

attribute [local semireducible] Rat.ofScientific Rat.mul Rat.inv Rat.add Rat.sub in
/-- Counterexample to C7 as stated: an `int` definition with declared
initial 2.5 and no override resolves to 2 (the coerced initial), not to
the declared initial value 2.5. -/
theorem c7_counterexample :
    getMergedParameters [{ name := "n", type := ParamType.int, initial := some (.num 2.5) }]
        emptyRecord "n" = some (.num 2)
    ∧ JSValue.num 2 ≠ JSValue.num 2.5 := by
  constructor
  · rfl
  · intro h
    have h' : (2 : Rat) = 2.5 := by injection h
    norm_num at h'

/-! ### Lemmas about hex color parsing -/

theorem hexDigitChar_isHex : ∀ n : Fin 16, isHexDigitChar (hexDigitChar n) = true := by
  decide

theorem hexPair_double : ∀ n : Fin 16,
    hexPair [hexDigitChar n, hexDigitChar n] = 17 * n.val := by
  decide

set_option maxRecDepth 4000 in
theorem hexPair_byteChars : ∀ b : Fin 256, hexPair (byteChars b) = b.val := by
  decide

set_option maxRecDepth 4000 in
theorem byteChars_isHex : ∀ b : Fin 256, ∀ c ∈ byteChars b, isHexDigitChar c = true := by
  decide

theorem hex_not_ws {c : Char} (h : isHexDigitChar c = true) : c.isWhitespace = false := by
  by_contra hw
  rw [Bool.not_eq_false] at hw
  simp only [Char.isWhitespace, Bool.or_eq_true, decide_eq_true_eq] at hw
  rcases hw with ((h1 | h1) | h1) | h1 <;> subst h1 <;> exact absurd h (by decide)

theorem dropWhile_eq_self_of {α : Type} (p : α → Bool) (l : List α)
    (h : ∀ c ∈ l, p c = false) : l.dropWhile p = l := by
  cases l with
  | nil => rfl
  | cons a l => rw [List.dropWhile_cons, h a (List.mem_cons_self a l)]; simp

theorem jsTrimChars_hash (rest : List Char) (hhex : rest.all isHexDigitChar = true) :
    jsTrimChars ('#' :: rest) = '#' :: rest := by
  have hmem : ∀ c ∈ rest, isHexDigitChar c = true := List.all_eq_true.mp hhex
  have hws : ∀ c ∈ ('#' :: rest).reverse, c.isWhitespace = false := by
    intro c hc
    rw [List.mem_reverse] at hc
    rcases List.mem_cons.mp hc with h | h
    · subst h; rfl
    · exact hex_not_ws (hmem c h)
  unfold jsTrimChars
  rw [show List.dropWhile Char.isWhitespace ('#' :: rest) = '#' :: rest by
        rw [List.dropWhile_cons, if_neg (by decide)],
      dropWhile_eq_self_of _ _ hws, List.reverse_reverse]

theorem coerceColor_hash (rest : List Char) (hhex : rest.all isHexDigitChar = true)
    (hlen : rest.length = 3 ∨ rest.length = 4 ∨ rest.length = 6 ∨ rest.length = 8) :
    coerceColor (.str (String.mk ('#' :: rest))) = hexColorChannels rest := by
  have htrim := jsTrimChars_hash rest hhex
  simp only [coerceColor]
  rw [show (String.mk ('#' :: rest)).toList = '#' :: rest from rfl, htrim]
  simp [hhex, hlen]

attribute [local semireducible] Rat.ofScientific Rat.mul Rat.inv Rat.add Rat.sub in
/-- C9: the persisted color `"#ff5555"` coerces to `[255/255, 85/255,
85/255, 1]`; in general a 3-digit short form is expanded by doubling each
digit (byte `17·d`), a 4-digit short form additionally yields alpha
`17·d₄ / 255`, a 6-digit form yields each channel as its parsed byte
divided by 255 with alpha 1 (alpha digits absent), and an 8-digit form
yields all four channels as parsed byte / 255. -/
theorem c9_color_hex_parsing :
    (coerceColor (.str "#ff5555") =
      .arr [.num 1, .num ((85 : Rat) / 255), .num ((85 : Rat) / 255), .num 1])
    ∧ (∀ d1 d2 d3 : Fin 16,
        coerceColor (.str (String.mk ['#', hexDigitChar d1, hexDigitChar d2, hexDigitChar d3])) =
          .arr [.num ((17 * d1.val : Nat) / 255 : Rat),
                .num ((17 * d2.val : Nat) / 255 : Rat),
                .num ((17 * d3.val : Nat) / 255 : Rat), .num 1])
    ∧ (∀ d1 d2 d3 d4 : Fin 16,
        coerceColor (.str (String.mk
            ['#', hexDigitChar d1, hexDigitChar d2, hexDigitChar d3, hexDigitChar d4])) =
          .arr [.num ((17 * d1.val : Nat) / 255 : Rat),
                .num ((17 * d2.val : Nat) / 255 : Rat),
                .num ((17 * d3.val : Nat) / 255 : Rat),
                .num ((17 * d4.val : Nat) / 255 : Rat)])
    ∧ (∀ b1 b2 b3 : Fin 256,
        coerceColor (.str (String.mk ('#' :: (byteChars b1 ++ byteChars b2 ++ byteChars b3)))) =
          .arr [.num ((b1.val : Rat) / 255), .num ((b2.val : Rat) / 255),
                .num ((b3.val : Rat) / 255), .num 1])
    ∧ (∀ b1 b2 b3 b4 : Fin 256,
        coerceColor (.str (String.mk
            ('#' :: (byteChars b1 ++ byteChars b2 ++ byteChars b3 ++ byteChars b4)))) =
          .arr [.num ((b1.val : Rat) / 255), .num ((b2.val : Rat) / 255),
                .num ((b3.val : Rat) / 255), .num ((b4.val : Rat) / 255)]) := by
  refine ⟨?_, ?_, ?_, ?_, ?_⟩
  · rfl
  · intro d1 d2 d3
    rw [show ['#', hexDigitChar d1, hexDigitChar d2, hexDigitChar d3] =
          '#' :: [hexDigitChar d1, hexDigitChar d2, hexDigitChar d3] from rfl,
        coerceColor_hash _ (by simp [hexDigitChar_isHex]) (by simp)]
    simp only [hexColorChannels, List.length_cons, List.length_nil, List.map_cons,
      List.map_nil, List.flatten]
    norm_num [hexPair_double]
  · intro d1 d2 d3 d4
    rw [show ['#', hexDigitChar d1, hexDigitChar d2, hexDigitChar d3, hexDigitChar d4] =
          '#' :: [hexDigitChar d1, hexDigitChar d2, hexDigitChar d3, hexDigitChar d4] from rfl,
        coerceColor_hash _ (by simp [hexDigitChar_isHex]) (by simp)]
    simp only [hexColorChannels, List.length_cons, List.length_nil, List.map_cons,
      List.map_nil, List.flatten]
    norm_num [hexPair_double]
  · intro b1 b2 b3
    rw [coerceColor_hash _ (by
          simp only [List.all_eq_true, List.mem_append]
          rintro c ((hc | hc) | hc) <;> exact byteChars_isHex _ c hc)
        (by simp [byteChars])]
    simp only [hexColorChannels, byteChars, List.cons_append, List.nil_append]
    norm_num [show ∀ b : Fin 256,
        hexPair [hexDigitChar ⟨b.val / 16, by omega⟩, hexDigitChar ⟨b.val % 16, by omega⟩] =
          b.val from hexPair_byteChars]
  · intro b1 b2 b3 b4
    rw [coerceColor_hash _ (by
          simp only [List.all_eq_true, List.mem_append]
          rintro c (((hc | hc) | hc) | hc) <;> exact byteChars_isHex _ c hc)
        (by simp [byteChars])]
    simp only [hexColorChannels, byteChars, List.cons_append, List.nil_append]
    norm_num [show ∀ b : Fin 256,
        hexPair [hexDigitChar ⟨b.val / 16, by omega⟩, hexDigitChar ⟨b.val % 16, by omega⟩] =
          b.val from hexPair_byteChars]

/-- C3: entrypoint resolution returns the manifest's main file when a
package.json at the root parses and its `main` names an existing
non-empty path with the `.jscad` extension; else `index.jscad` at the
root when it exists; else the active open file when it ends in `.jscad`;
else none — a manifest main that is missing, unparsable, non-string, or
points to a missing or wrongly-extended file is silently skipped, with
resolution falling through; without a workspace root, resolution goes
straight to the active-editor rule. -/
theorem c3_entrypoint_priority (fs : FileSystem) (root : String) (active : Option String) :
    (resolveJscadEntrypointWithOptions fs (some root) active =
      match specManifestMain fs root with
      | some p => some ⟨p, .packageJson⟩
      | none =>
          if fs.fileExists (pathJoin root "index.jscad") then
            some ⟨pathJoin root "index.jscad", .indexJscad⟩
          else
            match active with
            | some p =>
                if p ≠ "" ∧ p.endsWith ".jscad" then some ⟨p, .activeEditor⟩ else none
            | none => none)
    ∧ resolveJscadEntrypointWithOptions fs none active = resolveFromActiveEditor active := by
  refine ⟨?_, rfl⟩
  unfold resolveJscadEntrypointWithOptions specManifestMain resolveFromActiveEditor
  by_cases hpj : fs.fileExists (pathJoin root "package.json")
  · simp only [hpj, if_true]
    rcases hm : fs.readManifest (pathJoin root "package.json") with _ | mf
    · rfl
    · rcases mf with _ | v
      · rfl
      · rcases v with _ | _ | b | q | _ | s | l
        · rfl
        · rfl
        · rfl
        · rfl
        · rfl
        · by_cases hs : s = ""
          · simp [hs]
          · by_cases hc : (pathResolve root s).endsWith ".jscad" = true ∧
                fs.fileExists (pathResolve root s) = true
            · simp [hs, hc]
            · simp [hs, hc]
        · rfl
  · simp only [hpj, Bool.false_eq_true, if_false]

/-- C5: module resolution inside the execution context first attempts
the ambient resolution (script directory and module search path) and
returns its module when it succeeds; only when that attempt fails does
it fall back to the resolver rooted at the host's bundled dependencies. -/
theorem c5_require_fallback_order
    (nodeRequire extensionRequire : String → Except JSError JSValue) (m : String) :
    (∀ v, nodeRequire m = .ok v →
        customRequire nodeRequire extensionRequire m = .ok v)
    ∧ (∀ e, nodeRequire m = .error e →
        customRequire nodeRequire extensionRequire m = extensionRequire m) := by
  constructor
  · intro v hv
    unfold customRequire
    rw [hv]
  · intro e he
    unfold customRequire
    rw [he]

/-- Witness for C5: a name the ambient resolver knows is served by it;
a name it throws on is served by the bundled-dependency resolver. -/
theorem c5_require_fallback_order_witness :
    customRequire (fun s => if s = "lib" then .ok (.str "local") else .error ⟨"not found"⟩)
        (fun _ => .ok (.str "bundled")) "lib" = .ok (.str "local")
    ∧ customRequire (fun s => if s = "lib" then .ok (.str "local") else .error ⟨"not found"⟩)
        (fun _ => .ok (.str "bundled")) "other" = .ok (.str "bundled") := by
  constructor
  · exact (c5_require_fallback_order _ _ "lib").1 (.str "local") rfl
  · exact (c5_require_fallback_order _ _ "other").2 ⟨"not found"⟩ rfl

/-- C6 (amended): parameter introspection is a total function of the
load outcome (no exception propagates); it returns the module's
`getParameterDefinitions()` result when that export exists and the call
returns normally with a non-null, non-undefined value — even a malformed
non-array value is passed through as-is — and returns the empty list
when the module fails to load, the export is absent or not a function,
the call throws, or the result is `null`/`undefined` (whose length
access throws inside the guarded block). -/
theorem c6_introspection_best_effort (load : Except JSError ScriptModule) :
    (∀ e, load = .error e → getParameterDefinitions load = .arr [])
    ∧ (∀ m, load = .ok m → m.getParameterDefinitions = none →
        getParameterDefinitions load = .arr [])
    ∧ (∀ m e, load = .ok m → m.getParameterDefinitions = some (.error e) →
        getParameterDefinitions load = .arr [])
    ∧ (∀ m, load = .ok m →
        (m.getParameterDefinitions = some (.ok .null) ∨
         m.getParameterDefinitions = some (.ok .undef)) →
        getParameterDefinitions load = .arr [])
    ∧ (∀ m l, load = .ok m → m.getParameterDefinitions = some (.ok (.arr l)) →
        getParameterDefinitions load = .arr l)
    ∧ (∀ m v, load = .ok m → m.getParameterDefinitions = some (.ok v) →
        v ≠ .null → v ≠ .undef → getParameterDefinitions load = v) := by
  refine ⟨?_, ?_, ?_, ?_, ?_, ?_⟩
  · intro e he
    subst he
    rfl
  · intro m hm hg
    subst hm
    simp [getParameterDefinitions, hg]
  · intro m e hm hg
    subst hm
    simp [getParameterDefinitions, hg]
  · intro m hm hg
    subst hm
    rcases hg with hg | hg <;> simp [getParameterDefinitions, hg]
  · intro m l hm hg
    subst hm
    simp [getParameterDefinitions, hg]
  · intro m v hm hg hnull hundef
    subst hm
    cases v <;> simp_all [getParameterDefinitions]

/-- Witness for C6: a module whose metadata function returns a list of
definitions yields exactly that list. -/
theorem c6_introspection_best_effort_witness :
    getParameterDefinitions
        (.ok { getParameterDefinitions := some (.ok (.arr [.str "w"])) }) =
      .arr [.str "w"] :=
  (c6_introspection_best_effort
      (.ok { getParameterDefinitions := some (.ok (.arr [.str "w"])) })).2.2.2.2.1
    _ [.str "w"] rfl rfl

/-- Counterexample to C6 as stated: a metadata function returning the
malformed (non-array) value 42 is passed through as-is, not replaced by
the empty list. -/
theorem c6_counterexample :
    getParameterDefinitions
        (.ok { getParameterDefinitions := some (.ok (.num 42)) }) = .num 42
    ∧ JSValue.num 42 ≠ .arr [] :=
  ⟨rfl, fun h => JSValue.noConfusion h⟩

/-- C8: executing a script whose loaded module exports no `main`
function fails with the configuration error naming the missing export,
and no geometry is returned for that invocation. -/
theorem c8_missing_main {α : Type} (m : ScriptModule) (params : Option Record)
    (convert : JSValue → Except JSError α) (hmain : m.main = none) :
    executeJscadFile (.ok m) params convert =
      .error ⟨"JSCAD file must export a main() function"⟩
    ∧ ∀ gs : α, executeJscadFile (.ok m) params convert ≠ .ok gs := by
  have h : executeJscadFile (.ok m) params convert =
      .error ⟨"JSCAD file must export a main() function"⟩ := by
    have hstep : executeJscadFile (.ok m) params convert =
        (match m.main with
         | none => .error ⟨"JSCAD file must export a main() function"⟩
         | some mainFn =>
             match mainFn (params.getD emptyRecord) with
             | .error e => .error e
             | .ok result => convert (ensureArray result)) := rfl
    rw [hstep, hmain]
  refine ⟨h, fun gs hgs => ?_⟩
  rw [h] at hgs
  cases hgs

/-- Witness for C8: a module with no exports at all fails with the
configuration error. -/
theorem c8_missing_main_witness :
    executeJscadFile (α := List JSValue) (.ok {}) none (fun v => .ok [v]) =
      .error ⟨"JSCAD file must export a main() function"⟩ :=
  (c8_missing_main {} none (fun v => .ok [v]) rfl).1

/-! ### Lemmas about entity processing -/

theorem foldl_max_le_iff (l : List Nat) (a b : Nat) :
    l.foldl max a ≤ b ↔ a ≤ b ∧ ∀ v ∈ l, v ≤ b := by
  induction l generalizing a with
  | nil => simp
  | cons x xs ih =>
      rw [List.foldl_cons, ih]
      simp only [max_le_iff, List.mem_cons]
      constructor
      · rintro ⟨⟨ha, hx⟩, hxs⟩
        exact ⟨ha, fun v hv => hv.elim (fun h => h ▸ hx) (hxs v)⟩
      · rintro ⟨ha, hall⟩
        exact ⟨⟨ha, hall x (Or.inl rfl)⟩, fun v hv => hall v (Or.inr hv)⟩

theorem convertIndices_overflow (idx : List Nat) (h : ∃ v ∈ idx, 65535 < v) :
    ∃ msg, convertIndices idx = .error msg := by
  have hgt : 65535 < idx.foldl max 0 := by
    by_contra hle
    push_neg at hle
    rw [foldl_max_le_iff] at hle
    obtain ⟨v, hv, hv'⟩ := h
    exact absurd (hle.2 v hv) (by omega)
  exact ⟨"Mesh has index " ++ toString (idx.foldl max 0) ++
      " (> 65535). drawMesh uses uint16 indices.",
    by unfold convertIndices; rw [if_pos hgt]⟩

theorem convertIndices_ok (idx : List Nat) (h : ∀ v ∈ idx, v ≤ 65535) :
    convertIndices idx = .ok idx := by
  have hle : idx.foldl max 0 ≤ 65535 := (foldl_max_le_iff idx 0 65535).mpr ⟨by omega, h⟩
  unfold convertIndices
  rw [if_neg (by omega)]
  congr 1
  calc idx.map uint16 = idx.map id := by
        apply List.map_congr_left
        intro v hv
        exact Nat.mod_eq_of_lt (by have := h v hv; omega)
    _ = idx := List.map_id idx

theorem validateAttributes_indices (e : Entity) :
    (validateAttributes e).geometry.indices = e.geometry.indices := by
  rcases e with ⟨⟨cid, vcol, uvc, vtr⟩, ⟨gt, it, pos, nor, ind, col, tr, pts⟩⟩
  rcases pos with _ | p
  · rfl
  · rcases nor with _ | ns <;> rcases col with _ | cs <;> rcases vcol with _ | c <;>
      simp only [validateAttributes] <;> split_ifs <;>
      first
        | rfl
        | (dsimp only; split_ifs <;> rfl)

theorem validateAttributes_normals (e : Entity) (p : List Rat)
    (hp : e.geometry.positions = some p) (hlen : 0 < p.length) :
    (validateAttributes e).geometry.normals =
      (match e.geometry.normals with
       | some ns =>
           if ns.length ≠ (p.length / 3) * 3 then some (upFacingNormals (p.length / 3))
           else some ns
       | none => none) := by
  rcases e with ⟨⟨cid, vcol, uvc, vtr⟩, ⟨gt, it, pos, nor, ind, col, tr, pts⟩⟩
  simp only at hp
  subst hp
  rcases nor with _ | ns0 <;> rcases col with _ | cs0 <;> rcases vcol with _ | c0 <;>
    simp only [validateAttributes] <;> split_ifs <;>
    first
      | rfl
      | omega
      | (dsimp only; split_ifs <;> rfl)

theorem validateAttributes_colors (e : Entity) (p : List Rat)
    (hp : e.geometry.positions = some p) (hlen : 0 < p.length) :
    (validateAttributes e).geometry.colors =
      (match e.geometry.colors with
       | some cs => if cs.length ≠ (p.length / 3) * 4 then none else some cs
       | none => none) := by
  rcases e with ⟨⟨cid, vcol, uvc, vtr⟩, ⟨gt, it, pos, nor, ind, col, tr, pts⟩⟩
  simp only at hp
  subst hp
  rcases nor with _ | ns0 <;> rcases col with _ | cs0 <;> rcases vcol with _ | c0 <;>
    simp only [validateAttributes] <;> split_ifs <;>
    first
      | rfl
      | omega
      | (dsimp only; split_ifs <;> rfl)

theorem validateAttributes_visuals_color (e : Entity) (p : List Rat)
    (hp : e.geometry.positions = some p) (hlen : 0 < p.length) :
    (validateAttributes e).visuals.color =
      (match e.geometry.colors with
       | some cs =>
           if cs.length ≠ (p.length / 3) * 4 then
             (match e.visuals.color with
              | none => some [0.7, 0.7, 0.7, 1.0]
              | some c => some c)
           else e.visuals.color
       | none => e.visuals.color) := by
  rcases e with ⟨⟨cid, vcol, uvc, vtr⟩, ⟨gt, it, pos, nor, ind, col, tr, pts⟩⟩
  simp only at hp
  subst hp
  rcases nor with _ | ns0 <;> rcases col with _ | cs0 <;> rcases vcol with _ | c0 <;>
    simp only [validateAttributes] <;> split_ifs <;>
    first
      | rfl
      | omega
      | (dsimp only; split_ifs <;> rfl)

theorem validateAttributes_uvc (e : Entity) (p : List Rat)
    (hp : e.geometry.positions = some p) (hlen : 0 < p.length) :
    (validateAttributes e).visuals.useVertexColors =
      (match e.geometry.colors with
       | some cs =>
           if cs.length ≠ (p.length / 3) * 4 then some false
           else e.visuals.useVertexColors
       | none => e.visuals.useVertexColors) := by
  rcases e with ⟨⟨cid, vcol, uvc, vtr⟩, ⟨gt, it, pos, nor, ind, col, tr, pts⟩⟩
  simp only at hp
  subst hp
  rcases nor with _ | ns0 <;> rcases col with _ | cs0 <;> rcases vcol with _ | c0 <;>
    simp only [validateAttributes] <;> split_ifs <;>
    first
      | rfl
      | omega
      | (dsimp only; split_ifs <;> rfl)

theorem upFacingNormals_length (n : Nat) : (upFacingNormals n).length = n * 3 := by
  induction n with
  | zero => rfl
  | succ k ih =>
      rw [upFacingNormals, List.replicate_succ, List.flatten_cons]
      simp only [List.length_append, List.length_cons, List.length_nil]
      rw [show (List.replicate k ([0, 0, 1] : List Rat)).flatten = upFacingNormals k from rfl, ih]
      omega

theorem mapM_except_ne_ok {α β : Type} (f : α → Except String β) (es : List α)
    (e : α) (he : e ∈ es) (msg : String) (herr : f e = .error msg) (r : List β) :
    es.mapM f ≠ .ok r := by
  induction es generalizing r with
  | nil => cases he
  | cons hd tl ih =>
      intro hok
      rw [List.mapM_cons] at hok
      rcases List.mem_cons.mp he with heq | hmem
      · subst heq
        rw [herr] at hok
        simp [Bind.bind, Except.bind] at hok
      · rcases hf : f hd with e' | b
        · rw [hf] at hok
          simp [Bind.bind, Except.bind] at hok
        · rw [hf] at hok
          simp only [Bind.bind, Except.bind] at hok
          rcases ht : tl.mapM f with e' | bs
          · rw [ht] at hok
            simp [Pure.pure, Except.pure] at hok
          · exact ih hmem bs ht

theorem processEntity_ok_indices (e : Entity) (idx : List Nat)
    (hidx : e.geometry.indices = some idx)
    (hconv : convertIndices idx = .ok idx) :
    ∃ e', processEntity e = .ok e' ∧ e'.geometry.indices = some idx := by
  have h : processEntity e = .ok (validateAttributes
      { e with
        visuals :=
          (if e.geometry.isTransparent then
            { { e.visuals with cacheId := none } with transparent := some true }
          else { e.visuals with cacheId := none }),
        geometry := { e.geometry with indices := some idx } }) := by
    simp [processEntity, hidx, hconv]
  refine ⟨_, h, ?_⟩
  rw [validateAttributes_indices]

/-- C10: an entity whose flattened index buffer contains an index above
65535 makes webview normalization throw, so the whole batch fails to
render instead of producing a corrupted descriptor; an entity whose
indices all fit in 16 bits has them carried into the `Uint16Array`
unchanged. -/
theorem c10_uint16_index_guard (es : List Entity) :
    (∀ e ∈ es, ∀ idx, e.geometry.indices = some idx → (∃ v ∈ idx, 65535 < v) →
        ∀ r, processEntities es ≠ .ok r)
    ∧ (∀ e : Entity, ∀ idx, e.geometry.indices = some idx → (∀ v ∈ idx, v ≤ 65535) →
        ∃ e', processEntity e = .ok e' ∧ e'.geometry.indices = some idx) := by
  constructor
  · intro e he idx hidx hover r
    obtain ⟨msg, hmsg⟩ : ∃ msg, processEntity e = .error msg := by
      obtain ⟨msg, hmsg⟩ := convertIndices_overflow idx hover
      exact ⟨msg, by simp [processEntity, hidx, hmsg]⟩
    unfold processEntities
    exact mapM_except_ne_ok processEntity es e he msg hmsg r
  · intro e idx hidx hbound
    exact processEntity_ok_indices e idx hidx (convertIndices_ok idx hbound)

/-- Witness for C10: a one-triangle entity with index 70000 makes the
batch fail; an entity with indices 0,1,2 keeps them unchanged. -/
theorem c10_uint16_index_guard_witness :
    processEntities [{ geometry := { indices := some [0, 1, 70000] } }] ≠
      .ok [{ geometry := { indices := some [0, 1, 70000] } }] :=
  (c10_uint16_index_guard [{ geometry := { indices := some [0, 1, 70000] } }]).1
    { geometry := { indices := some [0, 1, 70000] } }
    (List.mem_singleton.mpr rfl) [0, 1, 70000] rfl
    ⟨70000, by simp, by norm_num⟩
    [{ geometry := { indices := some [0, 1, 70000] } }]

/-- C1 (amended): for an entity whose positions buffer is present and
non-empty, after validation any present normals buffer has length
vertexCount × 3 and any present colors buffer has length
vertexCount × 4; a mismatched normals buffer is replaced by per-vertex
up-facing normals (0,0,1); a mismatched colors buffer is discarded with
per-vertex coloring disabled, and the entity color is set to opaque
neutral gray [0.7, 0.7, 0.7, 1.0] exactly when the entity carries no
color of its own (an existing entity color is kept). -/
theorem c1_attribute_length_repair (e : Entity) (p : List Rat)
    (hp : e.geometry.positions = some p) (hlen : 0 < p.length) :
    (∀ ns, (validateAttributes e).geometry.normals = some ns →
        ns.length = (p.length / 3) * 3)
    ∧ (∀ cs, (validateAttributes e).geometry.colors = some cs →
        cs.length = (p.length / 3) * 4)
    ∧ (∀ ns, e.geometry.normals = some ns → ns.length ≠ (p.length / 3) * 3 →
        (validateAttributes e).geometry.normals = some (upFacingNormals (p.length / 3)))
    ∧ (∀ cs, e.geometry.colors = some cs → cs.length ≠ (p.length / 3) * 4 →
        (validateAttributes e).geometry.colors = none
        ∧ (validateAttributes e).visuals.useVertexColors = some false
        ∧ (e.visuals.color = none →
            (validateAttributes e).visuals.color = some [0.7, 0.7, 0.7, 1.0])
        ∧ (∀ c, e.visuals.color = some c →
            (validateAttributes e).visuals.color = some c)) := by
  refine ⟨?_, ?_, ?_, ?_⟩
  · intro ns hns
    rw [validateAttributes_normals e p hp hlen] at hns
    rcases hnor : e.geometry.normals with _ | ns0 <;> simp only [hnor] at hns
    · cases hns
    · by_cases hm : ns0.length ≠ (p.length / 3) * 3
      · rw [if_pos hm] at hns
        injection hns with h
        subst h
        exact upFacingNormals_length _
      · rw [if_neg hm] at hns
        injection hns with h
        subst h
        exact not_not.mp hm
  · intro cs hcs
    rw [validateAttributes_colors e p hp hlen] at hcs
    rcases hcol : e.geometry.colors with _ | cs0 <;> simp only [hcol] at hcs
    · cases hcs
    · by_cases hm : cs0.length ≠ (p.length / 3) * 4
      · rw [if_pos hm] at hcs
        cases hcs
      · rw [if_neg hm] at hcs
        injection hcs with h
        subst h
        exact not_not.mp hm
  · intro ns hns hmismatch
    rw [validateAttributes_normals e p hp hlen]
    simp only [hns]
    rw [if_pos hmismatch]
  · intro cs hcs hmismatch
    refine ⟨?_, ?_, ?_, ?_⟩
    · rw [validateAttributes_colors e p hp hlen]
      simp only [hcs]
      rw [if_pos hmismatch]
    · rw [validateAttributes_uvc e p hp hlen]
      simp only [hcs]
      rw [if_pos hmismatch]
    · intro hnone
      rw [validateAttributes_visuals_color e p hp hlen]
      simp only [hcs, hnone]
      rw [if_pos hmismatch]
    · intro c hc
      rw [validateAttributes_visuals_color e p hp hlen]
      simp only [hcs, hc]
      rw [if_pos hmismatch]

/-- Witness for C1: an entity with one vertex and a mismatched 2-entry
normals buffer gets the up-facing fallback. -/
theorem c1_attribute_length_repair_witness :
    (validateAttributes
        { geometry := { positions := some [0, 0, 0], normals := some [1, 2] } }).geometry.normals =
      some [0, 0, 1] := by
  have h := (c1_attribute_length_repair
      { geometry := { positions := some [0, 0, 0], normals := some [1, 2] } }
      [0, 0, 0] rfl (by norm_num)).2.2.1 [1, 2] rfl (by norm_num)
  rw [h]
  rfl

attribute [local semireducible] Rat.ofScientific Rat.mul Rat.inv Rat.add Rat.sub in
/-- Counterexample to C1 as stated, in two parts: (a) an entity that
already carries a red color keeps it when its mismatched colors buffer
is discarded — the color is not set to neutral gray; (b) an entity whose
positions buffer is empty escapes validation entirely, keeping a
normals buffer whose length (5) differs from vertex-count × 3 (0). -/
theorem c1_counterexample :
    ((validateAttributes
        { visuals := { color := some [1, 0, 0, 1] },
          geometry := { positions := some [0, 0, 0], colors := some [1, 1, 1] } }).geometry.colors
      = none
    ∧ (validateAttributes
        { visuals := { color := some [1, 0, 0, 1] },
          geometry := { positions := some [0, 0, 0], colors := some [1, 1, 1] } }).visuals.color
      = some [1, 0, 0, 1]
    ∧ some ([1, 0, 0, 1] : List Rat) ≠ some [0.7, 0.7, 0.7, 1.0])
    ∧ ((validateAttributes
        { geometry := { positions := some [], normals := some [1, 2, 3, 4, 5] } }).geometry.normals
      = some [1, 2, 3, 4, 5]
    ∧ ([1, 2, 3, 4, 5] : List Rat).length ≠ (([] : List Rat).length / 3) * 3) := by
  refine ⟨⟨rfl, rfl, ?_⟩, rfl, by norm_num⟩
  intro hcontra
  injection hcontra with h
  injection h with h1 h2
  norm_num at h1

/-! ### Lemmas about geometry conversion -/

theorem flatten_map_const_length {α β : Type} (f : α → List β) (k : Nat)
    (h : ∀ a, (f a).length = k) (l : List α) :
    ((l.map f).flatten).length = l.length * k := by
  induction l with
  | nil => simp
  | cons hd tl ih =>
      simp [ih, h hd, Nat.succ_mul, Nat.add_comm]

theorem replicate_three_flatten {β : Type} (c : List β) (m : Nat) :
    (List.replicate m (c ++ c ++ c)).flatten = (List.replicate (3 * m) c).flatten := by
  induction m with
  | zero => rfl
  | succ k ih =>
      have h3 : 3 * (k + 1) = 3 * k + 1 + 1 + 1 := by ring
      rw [List.replicate_succ, List.flatten_cons, ih, h3]
      simp [List.replicate_succ, List.flatten_cons, List.append_assoc]

theorem convert_foldl (sqrtFn : Rat → Rat) (polys : List (List Vec3))
    (a b : List Rat) :
    polys.foldl
      (fun acc poly =>
        (acc.1 ++ (polygonContribution sqrtFn poly).1,
         acc.2 ++ (polygonContribution sqrtFn poly).2)) (a, b) =
      (a ++ (polys.map (fun poly => (polygonContribution sqrtFn poly).1)).flatten,
       b ++ (polys.map (fun poly => (polygonContribution sqrtFn poly).2)).flatten) := by
  induction polys generalizing a b with
  | nil => simp
  | cons hd tl ih =>
      rw [List.foldl_cons, ih]
      simp [List.append_assoc]

/-- C4: for a polygon with n ≥ 3 vertices the webview conversion emits
exactly the fan triangles (0, i, i+1) for i = 1 .. n−2 anchored at the
first vertex, contributing 3·(n−2) vertex positions (9·(n−2) flat
components); the face normal — `faceNormal`, the normalized cross
product of (v1−v0) and (v2−v0) — is duplicated for every vertex the
face contributes; polygons with fewer than 3 vertices contribute
nothing; and the whole-geometry conversion is the concatenation of the
per-polygon contributions. -/
theorem c4_fan_triangulation (sqrtFn : Rat → Rat) (vertices : List Vec3)
    (h3 : 3 ≤ vertices.length) :
    triangulatePolygon vertices =
      (List.range' 1 (vertices.length - 2)).map (fun i => (0, i, i + 1))
    ∧ (triangulatePolygon vertices).length = vertices.length - 2
    ∧ (polygonContribution sqrtFn vertices).1.length = 3 * (vertices.length - 2) * 3
    ∧ (polygonContribution sqrtFn vertices).2 =
        (List.replicate (3 * (vertices.length - 2))
          (vecCoords (faceNormal sqrtFn vertices))).flatten
    ∧ (∀ vs : List Vec3, vs.length < 3 → polygonContribution sqrtFn vs = ([], []))
    ∧ (∀ polys : List (List Vec3),
        convertGeom3ToBufferGeometry sqrtFn ⟨polys⟩ =
          ((polys.map (fun poly => (polygonContribution sqrtFn poly).1)).flatten,
           (polys.map (fun poly => (polygonContribution sqrtFn poly).2)).flatten)) := by
  have htris : triangulatePolygon vertices =
      (List.range' 1 (vertices.length - 2)).map (fun i => (0, i, i + 1)) := by
    unfold triangulatePolygon
    rw [if_neg (by omega)]
  have hlen : (triangulatePolygon vertices).length = vertices.length - 2 := by
    rw [htris, List.length_map, List.length_range']
  refine ⟨htris, hlen, ?_, ?_, ?_, ?_⟩
  · unfold polygonContribution
    rw [if_neg (by omega)]
    dsimp only
    rw [flatten_map_const_length _ 9 (fun t => by simp [vecCoords]) _, hlen]
    ring
  · unfold polygonContribution
    rw [if_neg (by omega)]
    dsimp only
    rw [List.map_const', hlen, replicate_three_flatten]
  · intro vs hvs
    unfold polygonContribution
    rw [if_pos hvs]
  · intro polys
    unfold convertGeom3ToBufferGeometry
    rw [convert_foldl]
    simp

/-- Witness for C4: the unit triangle (0,0,0), (1,0,0), (0,1,0), with
the identity standing in for `Math.sqrt` (the squared length is 1, whose
square root is 1). -/
theorem c4_fan_triangulation_witness :
    (polygonContribution (fun q => q)
        ([((0 : Rat), (0 : Rat), (0 : Rat)), (1, 0, 0), (0, 1, 0)] : List Vec3)).1.length =
      3 * (([((0 : Rat), (0 : Rat), (0 : Rat)), (1, 0, 0), (0, 1, 0)] : List Vec3).length - 2) * 3
    ∧ (polygonContribution (fun q => q)
        ([((0 : Rat), (0 : Rat), (0 : Rat)), (1, 0, 0), (0, 1, 0)] : List Vec3)).2 =
      (List.replicate
        (3 * (([((0 : Rat), (0 : Rat), (0 : Rat)), (1, 0, 0), (0, 1, 0)] : List Vec3).length - 2))
        (vecCoords (faceNormal (fun q => q)
          ([((0 : Rat), (0 : Rat), (0 : Rat)), (1, 0, 0), (0, 1, 0)] : List Vec3)))).flatten :=
  ⟨(c4_fan_triangulation (fun q => q) _ (by norm_num)).2.2.1,
   (c4_fan_triangulation (fun q => q) _ (by norm_num)).2.2.2.1⟩

end HootCad
